import Mathlib

/-!
Formal model of `next-better-api` (src/route.ts variant exporting `endpoint`
and `asHandler`, together with src/context.ts): endpoint declaration, the
method-indexed dispatcher built by `asHandler`, the per-request pipeline
(method resolution → schema validation → context construction → handler
invocation → response-schema check → response emission), and the decorator
chain.

Modelling conventions:
* JavaScript values flowing through requests/responses are modelled by the
  JSON-like inductive `JValue`.
* zod is an external capability; a schema is modelled as its `safeParse`
  function, returning either a parsed value or a `ZodError` carrying the
  structured `errors` payload.
* A JS `throw` is modelled with `Except Error`; the dispatcher's top-level
  `try/catch` (emit 500 then `throw error` again) becomes `outerHandler`
  returning the emitted response paired with the re-raised error, if any.
* The mutable `res` object is modelled by the final `EmittedResponse`: the
  list of headers set via `setHeader`, and the terminal action
  (`end` / `redirect` / `send`).  No header is ever set before the last
  possible throw point in the source (headers are applied at line
  `setResponseHeaders(res, headers)`, after the response-schema check), so
  an error path always carries an empty header list.
* JS object spread `{...a, ...b}` is modelled as list append with
  last-binding-wins lookup (`ctxGet`).
-/

namespace NextBetterApi

/-- JSON-like runtime values (the payloads of `req.query`, `req.body`,
response bodies and zod error structures). -/
inductive JValue where
  | null : JValue
  | bool : Bool → JValue
  | num : Int → JValue
  | str : String → JValue
  | arr : List JValue → JValue
  | obj : List (String × JValue) → JValue

/-- JavaScript truthiness of a `JValue` (`if (body && ...)`, `status || 200`,
`if (redirect)` all test truthiness).  Objects and arrays are always truthy;
`null`, `false`, `0` and `""` are falsy. -/
def jtruthy : JValue → Bool
  | .null => false
  | .bool b => b
  | .num n => n != 0
  | .str s => s != ""
  | .arr _ => true
  | .obj _ => true

/-- Truthiness of a possibly-absent (`undefined`) value. -/
def jtruthyOpt : Option JValue → Bool
  | none => false
  | some v => jtruthy v

mutual

/-- `JSON.stringify` for the model's values (string escaping elided: the
model never serializes strings containing quotes). -/
def jsonStringify : JValue → String
  | .null => "null"
  | .bool b => if b then "true" else "false"
  | .num n => toString n
  | .str s => "\"" ++ s ++ "\""
  | .arr xs => "[" ++ jsonStringifyList xs ++ "]"
  | .obj fs => "\x7b" ++ jsonStringifyFields fs ++ "\x7d"

/-- Comma-separated serialization of an array's elements. -/
def jsonStringifyList : List JValue → String
  | [] => ""
  | [x] => jsonStringify x
  | x :: xs => jsonStringify x ++ "," ++ jsonStringifyList xs

/-- Comma-separated serialization of an object's fields. -/
def jsonStringifyFields : List (String × JValue) → String
  | [] => ""
  | [(k, v)] => "\"" ++ k ++ "\":" ++ jsonStringify v
  | (k, v) :: fs =>
      "\"" ++ k ++ "\":" ++ jsonStringify v ++ "," ++ jsonStringifyFields fs

end

/-- JS `String.prototype.toLowerCase()` (all method strings involved are
ASCII). -/
def toLowerCase (s : String) : String :=
  String.mk (s.data.map Char.toLower)

/-- zod's `ZodError`: carries the structured `errors` payload that the
route code serializes into 400 responses. -/
structure ZodError where
  errors : JValue

/-- Result of zod's `safeParse`: `{success: true, data}` or
`{success: false, error}`. -/
inductive SafeParseResult where
  | success : JValue → SafeParseResult
  | failure : ZodError → SafeParseResult

/-- A zod schema, modelled by its `safeParse` capability (never throws). -/
structure Schema where
  safeParse : JValue → SafeParseResult

/-- Errors thrown through the pipeline: a `ZodError` raised by the
response-schema check, or an arbitrary error thrown by user code
(handler / context builder). -/
inductive Error where
  | zodError : ZodError → Error
  | userError : String → Error

/-- The inbound `NextApiRequest` surface the route code touches: `method`
(possibly `undefined`, hence `Option`), `query` and `body` (opaque values
already deserialized by the host framework). -/
structure NextApiRequest where
  method : Option String
  query : JValue
  body : JValue

/-- A value stored in the context object handed to a handler: either a
JSON-like value (e.g. the `query`/`body` fields or fields produced by a
context builder) or one of the raw framework handles carried by
`RouteContext` (`req`, `res`). -/
inductive CtxVal where
  | jval : JValue → CtxVal
  | reqHandle : NextApiRequest → CtxVal
  | resHandle : CtxVal

/-- A JS object built by spreads, as an ordered list of bindings; on
duplicate keys the LAST binding wins (`ctxGet`). -/
abbrev CtxObject := List (String × CtxVal)

/-- Property read on a spread-built object: the last binding for the key. -/
def ctxGet (ctx : CtxObject) (key : String) : Option CtxVal :=
  (ctx.reverse.find? (fun p => p.1 == key)).map Prod.snd

/-- `RouteContext` (src/context.ts): `{ req, res }`. -/
abbrev RouteContext := CtxObject

/-- `createRouteContext({ req, res })` (src/context.ts) returns a shallow
copy `{...baseContext}` of the two handles. -/
def createRouteContext (req : NextApiRequest) : RouteContext :=
  [("req", CtxVal.reqHandle req), ("res", CtxVal.resHandle)]

/-- A header value: `string | string[]`. -/
inductive HeaderValue where
  | str : String → HeaderValue
  | strs : List String → HeaderValue

/-- The result object a handler returns:
`{ status?, redirect?, body?, headers? }`. -/
structure HandlerResponse where
  status : Option Int := none
  redirect : Option String := none
  body : Option JValue := none
  headers : Option (List (String × HeaderValue)) := none

/-- An endpoint definition as produced by `endpoint(options, handler)`
(src/route.ts): the spread of the options plus the handler.  `method` is a
string at runtime (the code casts it and lowercases defensively); the
context builder and the handler may throw, modelled with `Except Error`. -/
structure EndpointDef where
  method : String
  querySchema : Option Schema := none
  bodySchema : Option Schema := none
  responseSchema : Option Schema := none
  context : Option (RouteContext → Except Error CtxObject) := none
  handler : CtxObject → Except Error HandlerResponse

/-- `endpoint(options, handler)` merges the options with the handler; pure
construction, no validation at declaration time. -/
def endpoint (method : String) (querySchema bodySchema responseSchema : Option Schema)
    (context : Option (RouteContext → Except Error CtxObject))
    (handler : CtxObject → Except Error HandlerResponse) : EndpointDef :=
  { method := method, querySchema := querySchema, bodySchema := bodySchema,
    responseSchema := responseSchema, context := context, handler := handler }

/-- The terminal write performed on the response object: `res.status(s).end(...)`,
`res.redirect(s, url)` or `res.status(s).send(body)` (a `send` of an absent
body yields an empty response body). -/
inductive ResponseAction where
  | endAction : Int → Option String → ResponseAction
  | redirectAction : Int → String → ResponseAction
  | sendAction : Int → Option JValue → ResponseAction

/-- The observable outcome on the response object: every header set via
`res.setHeader` (in call order), and the terminal action. -/
structure EmittedResponse where
  headers : List (String × HeaderValue)
  action : ResponseAction

/-- `errorResponse({ errors })` inside the validation helpers:
`JSON.stringify({ errors })`. -/
def errorResponse (e : ZodError) : String :=
  jsonStringify (JValue.obj [("errors", e.errors)])

/-- `validateEndpointSchemaForRequest(endpointDef, req)` (src/route.ts):
query schema first; on its failure return the serialized error response at
once (the body schema is not consulted); otherwise body schema; `undefined`
(here `none`) when everything passes. -/
def validateEndpointSchemaForRequest (endpointDef : EndpointDef)
    (req : NextApiRequest) : Option String :=
  match endpointDef.querySchema with
  | some querySchema =>
    match querySchema.safeParse req.query with
    | .failure e => some (errorResponse e)
    | .success _ =>
      match endpointDef.bodySchema with
      | some bodySchema =>
        match bodySchema.safeParse req.body with
        | .failure e => some (errorResponse e)
        | .success _ => none
      | none => none
  | none =>
    match endpointDef.bodySchema with
    | some bodySchema =>
      match bodySchema.safeParse req.body with
      | .failure e => some (errorResponse e)
      | .success _ => none
    | none => none

/-- The merged context object handed to the handler (src/route.ts, the
`handler({...routeContext, ...endpointContext, query: req.query, body:
req.body})` call): spreads are ordered route context, then the context
builder's extra context, then the raw `query`/`body` request fields. -/
def buildMergedContext (routeContext : RouteContext) (endpointContext : CtxObject)
    (req : NextApiRequest) : CtxObject :=
  routeContext ++ endpointContext ++
    [("query", CtxVal.jval req.query), ("body", CtxVal.jval req.body)]

/-- The `endpointDef.context ? await endpointDef.context(routeContext) : {}`
step. -/
def contextResult (endpointDef : EndpointDef) (req : NextApiRequest) :
    Except Error CtxObject :=
  match endpointDef.context with
  | some contextBuilder => contextBuilder (createRouteContext req)
  | none => .ok []

/-- `setResponseHeaders(res, headers)`: when a headers map is present every
entry is set on the response via `setHeader`, in order; otherwise nothing
is set.  The model records the resulting header list. -/
def setResponseHeaders (headers : Option (List (String × HeaderValue))) :
    List (String × HeaderValue) :=
  match headers with
  | some hs => hs
  | none => []

/-- `status || dflt`: JS truthiness defaulting of the numeric status
(`undefined` and `0` are falsy). -/
def statusOrDefault (status : Option Int) (dflt : Int) : Int :=
  match status with
  | some s => if s == 0 then dflt else s
  | none => dflt

/-- `if (redirect)`: truthiness of the optional redirect string
(`undefined` and `""` are falsy). -/
def redirectTruthy : Option String → Bool
  | none => false
  | some s => s != ""

/-- Response emission (src/route.ts lines `setResponseHeaders(res, headers);
if (redirect) res.redirect(status || 307, redirect); else
res.status(status || 200).send(body);`). -/
def emitResult (r : HandlerResponse) : EmittedResponse :=
  { headers := setResponseHeaders r.headers,
    action :=
      if redirectTruthy r.redirect then
        .redirectAction (statusOrDefault r.status 307) (r.redirect.getD "")
      else
        .sendAction (statusOrDefault r.status 200) r.body }

/-- The post-handler step: `if (body && endpointDef.responseSchema)` safe
parse the returned body and `throw responseSchemaParse.error` on failure,
then emit the response. -/
def finishResponse (responseSchema : Option Schema) (r : HandlerResponse) :
    Except Error EmittedResponse :=
  match responseSchema with
  | some rs =>
    if jtruthyOpt r.body then
      match rs.safeParse (r.body.getD .null) with
      | .failure e => .error (.zodError e)
      | .success _ => .ok (emitResult r)
    else
      .ok (emitResult r)
  | none => .ok (emitResult r)

/-- `methodEndpoints[req.method?.toLowerCase()]`: resolving an endpoint by
the lower-cased request method.  An absent method resolves to no endpoint
(no `HttpMethod` is the string `"undefined"`). -/
def lookupEndpoint (methodEndpoints : List (String × EndpointDef))
    (method : Option String) : Option EndpointDef :=
  match method with
  | none => none
  | some m => (methodEndpoints.find? (fun p => p.1 == m)).map Prod.snd

/-- The `try` block of the dispatcher's per-request function (src/route.ts
`outerHandler`): method resolution (404 on a miss), schema validation (400
carrying the serialized errors), context construction, handler invocation
with the merged context, response-schema check, response emission.  An
`Except.error` is a JS `throw` escaping the `try` block. -/
def runEndpointPipeline (methodEndpoints : List (String × EndpointDef))
    (req : NextApiRequest) : Except Error EmittedResponse :=
  match lookupEndpoint methodEndpoints (req.method.map toLowerCase) with
  | none => .ok { headers := [], action := .endAction 404 none }
  | some endpointDef =>
    match validateEndpointSchemaForRequest endpointDef req with
    | some schemaValidationErrors =>
        .ok { headers := [], action := .endAction 400 (some schemaValidationErrors) }
    | none =>
      match contextResult endpointDef req with
      | .error e => .error e
      | .ok endpointContext =>
        match endpointDef.handler
            (buildMergedContext (createRouteContext req) endpointContext req) with
        | .error e => .error e
        | .ok r => finishResponse endpointDef.responseSchema r

/-- The complete per-request function including the `catch` clause: on any
uncaught error, `res.status(500).end()` is emitted and the same error is
re-thrown (returned as the second component). -/
def outerHandler (methodEndpoints : List (String × EndpointDef))
    (req : NextApiRequest) : EmittedResponse × Option Error :=
  match runEndpointPipeline methodEndpoints req with
  | .ok r => (r, none)
  | .error e => ({ headers := [], action := .endAction 500 none }, some e)

/-- The dispatcher's request-handler capability. -/
abbrev NextApiHandlerM := NextApiRequest → EmittedResponse × Option Error

/-- A decorator wraps a handler in a new handler. -/
abbrev Decorator := NextApiHandlerM → NextApiHandlerM

/-- `decorateHandler(handler, decorators)` (src/route.ts): the list is
reduced left to right, each decorator wrapping the previous result. -/
def decorateHandler (handler : NextApiHandlerM) (decorators : List Decorator) :
    NextApiHandlerM :=
  decorators.foldl (fun wrappedHandler decorator => decorator wrappedHandler) handler

/-- `handlers.reduce(...)` inside `asHandler`: fold the endpoint list into a
method-indexed map, lower-casing each method and throwing
`Duplicate endpoint definition for <method>` when the key is already
present.  The JS object accumulator becomes an ordered association list
(keys are unique by construction, so first-match lookup agrees with JS
property lookup). -/
def buildMethodEndpointsAux (acc : List (String × EndpointDef)) :
    List EndpointDef → Except String (List (String × EndpointDef))
  | [] => .ok acc
  | endpointDef :: rest =>
    let method := toLowerCase endpointDef.method
    if (acc.any (fun p => p.1 == method)) then
      .error ("Duplicate endpoint definition for " ++ method)
    else
      buildMethodEndpointsAux (acc ++ [(method, endpointDef)]) rest

/-- The method-index construction starting from the empty object. -/
def buildMethodEndpoints (endpoints : List EndpointDef) :
    Except String (List (String × EndpointDef)) :=
  buildMethodEndpointsAux [] endpoints

/-- Options accepted by `asHandler`: `{ decorators? }`. -/
structure AsHandlerOptions where
  decorators : Option (List Decorator) := none

/-- `asHandler(endpoints, options)` (src/route.ts): builds the method index
(throwing synchronously on a duplicate method, before any handler is
returned — modelled by `Except.error`), then returns the decorated
per-request function `decorateHandler(outerHandler, decorators || [])`. -/
def asHandler (endpoints : List EndpointDef)
    (options : AsHandlerOptions) : Except String NextApiHandlerM :=
  match buildMethodEndpoints endpoints with
  | .error msg => .error msg
  | .ok methodEndpoints =>
      .ok (decorateHandler (outerHandler methodEndpoints)
        (options.decorators.getD []))

/-! ### Concrete fixtures

Sample schemas, endpoints and requests used to exercise the model at
concrete inputs. -/

/-- A handler that echoes the `query` field of the context it receives into
the response body, so theorems can observe exactly which value reached the
handler. -/
def echoQueryHandler (ctx : CtxObject) : Except Error HandlerResponse :=
  .ok { status := some 200,
        body := some (JValue.obj [("q",
          (match ctxGet ctx "query" with
           | some (.jval v) => v
           | _ => JValue.null))]) }

/-- An endpoint whose context builder returns `{ query: "clobber" }`,
colliding with the parsed-query key. -/
def clobberQueryEndpoint : EndpointDef :=
  { method := "get",
    context := some (fun _ => .ok [("query", CtxVal.jval (.str "clobber"))]),
    handler := echoQueryHandler }

/-- A GET request carrying the query value `"rawQuery"`. -/
def rawQueryRequest : NextApiRequest :=
  { method := some "get", query := .str "rawQuery", body := .null }

/-- A schema that accepts exactly the input `"raw"` and normalises it to
`"normalised"` (a zod transform), rejecting everything else. -/
def normalisingSchema : Schema :=
  ⟨fun v => match v with
    | .str "raw" => .success (.str "normalised")
    | _ => .failure ⟨.arr [.str "expected raw"]⟩⟩

/-- An endpoint declaring `normalisingSchema` as its query schema, with the
echoing handler. -/
def normalisingEndpoint : EndpointDef :=
  { method := "get",
    querySchema := some normalisingSchema,
    handler := echoQueryHandler }

/-- A GET request whose query is the pre-normalisation value `"raw"`. -/
def rawRequest : NextApiRequest :=
  { method := some "get", query := .str "raw", body := .null }

/-- A GET request with trivial query/body payloads. -/
def getRequest : NextApiRequest :=
  { method := some "get", query := .null, body := .null }

/-- A schema that rejects every input with a fixed error payload. -/
def rejectAllSchema : Schema :=
  ⟨fun _ => .failure ⟨.str "rejected"⟩⟩

/-- A schema that accepts every input unchanged. -/
def acceptAllSchema : Schema :=
  ⟨fun v => .success v⟩

/-- An endpoint whose query schema rejects everything while its body schema
accepts everything. -/
def queryFailEndpoint : EndpointDef :=
  { method := "get",
    querySchema := some rejectAllSchema,
    bodySchema := some acceptAllSchema,
    handler := echoQueryHandler }

/-- A minimal GET endpoint returning a constant 200 response. -/
def simpleGetEndpoint : EndpointDef :=
  { method := "get",
    handler := fun _ => .ok { status := some 200,
                              body := some (.obj [("hello", .str "world")]) } }

/-- An endpoint whose handler always throws. -/
def throwingEndpoint : EndpointDef :=
  { method := "get",
    handler := fun _ => .error (.userError "boom") }

/-- The query-schema gate passes: either no query schema is declared, or its
safe parse of the request query succeeds. -/
def queryPasses (endpointDef : EndpointDef) (req : NextApiRequest) : Prop :=
  ∀ qs, endpointDef.querySchema = some qs →
    ∃ d, qs.safeParse req.query = SafeParseResult.success d

/-! ### Claim theorems -/

/-- C4: for every request whose lower-cased method has no registered
endpoint, the dispatcher emits exactly a 404 response with an empty body
and no headers, re-raises nothing, and terminates — the conclusion holds
for arbitrary endpoint tables, so no schema validation, context builder or
handler of any endpoint is ever consulted. -/
theorem c4_unknown_method_404 (methodEndpoints : List (String × EndpointDef))
    (req : NextApiRequest)
    (h : lookupEndpoint methodEndpoints (req.method.map toLowerCase) = none) :
    outerHandler methodEndpoints req =
      ({ headers := [], action := .endAction 404 none }, none) := by
  simp [outerHandler, runEndpointPipeline, h]

/-- C4 witness: a PATCH request against a table registering only GET. -/
theorem c4_unknown_method_404_witness :
    outerHandler [("get", simpleGetEndpoint)]
        { method := some "PATCH", query := .null, body := .null } =
      ({ headers := [], action := .endAction 404 none }, none) :=
  c4_unknown_method_404 [("get", simpleGetEndpoint)]
    { method := some "PATCH", query := .null, body := .null } rfl

/-- C9: a request with an entirely absent (`undefined`) method does not
make the dispatcher raise: method resolution safely yields no endpoint and
the response is a 404 with empty body, exactly as for an unregistered
method. -/
theorem c9_absent_method_404 (methodEndpoints : List (String × EndpointDef))
    (req : NextApiRequest) (h : req.method = none) :
    outerHandler methodEndpoints req =
      ({ headers := [], action := .endAction 404 none }, none) := by
  simp [outerHandler, runEndpointPipeline, lookupEndpoint, h]

/-- C9 witness: a method-less request against a non-empty endpoint table. -/
theorem c9_absent_method_404_witness :
    outerHandler [("get", simpleGetEndpoint)]
        { method := none, query := .null, body := .null } =
      ({ headers := [], action := .endAction 404 none }, none) :=
  c9_absent_method_404 [("get", simpleGetEndpoint)]
    { method := none, query := .null, body := .null } rfl

/-- C2: validation is query-first and stops at the first failure.  If the
resolved endpoint's query schema rejects the request query, the response is
a 400 whose body is the serialized `{ errors }` of the query schema alone —
for every body schema and handler, neither of which is consulted (the
conclusion is independent of both).  Symmetrically, when the query schema
is absent or passes and the body schema rejects, the 400 body carries only
the body schema's errors. -/
theorem c2_validation_first_failure (methodEndpoints : List (String × EndpointDef))
    (req : NextApiRequest) (ep : EndpointDef)
    (hlook : lookupEndpoint methodEndpoints (req.method.map toLowerCase) = some ep) :
    (∀ qs e, ep.querySchema = some qs → qs.safeParse req.query = .failure e →
      outerHandler methodEndpoints req =
        ({ headers := [], action := .endAction 400 (some (errorResponse e)) }, none)) ∧
    (∀ bs e, queryPasses ep req → ep.bodySchema = some bs →
      bs.safeParse req.body = .failure e →
      outerHandler methodEndpoints req =
        ({ headers := [], action := .endAction 400 (some (errorResponse e)) }, none)) := by
  constructor
  · intro qs e hq hfail
    simp [outerHandler, runEndpointPipeline, hlook,
      validateEndpointSchemaForRequest, hq, hfail]
  · intro bs e hpass hb hfail
    cases hqs : ep.querySchema with
    | none =>
      simp [outerHandler, runEndpointPipeline, hlook,
        validateEndpointSchemaForRequest, hqs, hb, hfail]
    | some qs =>
      obtain ⟨d, hd⟩ := hpass qs hqs
      simp [outerHandler, runEndpointPipeline, hlook,
        validateEndpointSchemaForRequest, hqs, hd, hb, hfail]

/-- C2 witness: a GET endpoint whose query schema rejects everything (and
whose body schema accepts everything) yields a 400 carrying the query
schema's serialized errors. -/
theorem c2_validation_first_failure_witness :
    outerHandler [("get", queryFailEndpoint)] getRequest =
      ({ headers := [],
         action := .endAction 400 (some (errorResponse ⟨.str "rejected"⟩)) }, none) :=
  (c2_validation_first_failure [("get", queryFailEndpoint)] getRequest
      queryFailEndpoint rfl).1 rejectAllSchema ⟨.str "rejected"⟩ rfl rfl

/-- C5: every uncaught error in the pipeline — thrown by the context
builder, thrown by the handler, or raised because the response schema's
safe parse failed (which throws rather than producing a 400) — makes the
dispatcher emit a 500 response with empty body and re-raise that same
error. -/
theorem c5_error_emits_500_then_reraises (methodEndpoints : List (String × EndpointDef))
    (req : NextApiRequest) (ep : EndpointDef)
    (hlook : lookupEndpoint methodEndpoints (req.method.map toLowerCase) = some ep)
    (hval : validateEndpointSchemaForRequest ep req = none) :
    (∀ e, contextResult ep req = .error e →
      outerHandler methodEndpoints req =
        ({ headers := [], action := .endAction 500 none }, some e)) ∧
    (∀ extra e, contextResult ep req = .ok extra →
      ep.handler (buildMergedContext (createRouteContext req) extra req) = .error e →
      outerHandler methodEndpoints req =
        ({ headers := [], action := .endAction 500 none }, some e)) ∧
    (∀ extra r rs b e, contextResult ep req = .ok extra →
      ep.handler (buildMergedContext (createRouteContext req) extra req) = .ok r →
      ep.responseSchema = some rs → r.body = some b → jtruthy b = true →
      rs.safeParse b = .failure e →
      outerHandler methodEndpoints req =
        ({ headers := [], action := .endAction 500 none }, some (.zodError e))) := by
  refine ⟨?_, ?_, ?_⟩
  · intro e hctx
    simp [outerHandler, runEndpointPipeline, hlook, hval, hctx]
  · intro extra e hctx hh
    simp [outerHandler, runEndpointPipeline, hlook, hval, hctx, hh]
  · intro extra r rs b e hctx hh hrs hbody htruthy hfail
    simp [outerHandler, runEndpointPipeline, hlook, hval, hctx, hh,
      finishResponse, hrs, jtruthyOpt, hbody, htruthy, hfail]

/-- C5 witness: a handler that throws `userError "boom"` produces the
empty 500 and the same error is re-raised. -/
theorem c5_error_emits_500_then_reraises_witness :
    outerHandler [("get", throwingEndpoint)] getRequest =
      ({ headers := [], action := .endAction 500 none }, some (.userError "boom")) :=
  (c5_error_emits_500_then_reraises [("get", throwingEndpoint)] getRequest
      throwingEndpoint rfl rfl).2.1 [] (.userError "boom") rfl rfl

/-- C6: for every handler result that reaches response emission, the
declared headers are applied on both paths; a truthy `redirect` yields a
redirect with the given status or default 307, otherwise the body is sent
with the given status or default 200; an explicitly given non-zero status
always overrides either default; and whatever the response-schema gate lets
through is emitted exactly this way. -/
theorem c6_emission_defaults_and_overrides (r : HandlerResponse) :
    (∀ loc, r.redirect = some loc → loc ≠ "" →
      emitResult r = { headers := setResponseHeaders r.headers,
                       action := .redirectAction (statusOrDefault r.status 307) loc }) ∧
    (redirectTruthy r.redirect = false →
      emitResult r = { headers := setResponseHeaders r.headers,
                       action := .sendAction (statusOrDefault r.status 200) r.body }) ∧
    (∀ s : Int, r.status = some s → s ≠ 0 →
      statusOrDefault r.status 307 = s ∧ statusOrDefault r.status 200 = s) ∧
    (∀ rs resp, finishResponse rs r = .ok resp → resp = emitResult r) := by
  refine ⟨?_, ?_, ?_, ?_⟩
  · intro loc hloc hne
    simp [emitResult, redirectTruthy, hloc, hne]
  · intro hfalse
    simp [emitResult, hfalse]
  · intro s hs hne
    simp [statusOrDefault, hs, hne]
  · intro rs resp hfin
    cases rs with
    | none =>
      simp [finishResponse] at hfin
      exact hfin.symm
    | some schema =>
      by_cases hb : jtruthyOpt r.body
      · rcases hparse : schema.safeParse (r.body.getD .null) with d | e
        · simp [finishResponse, hb, hparse] at hfin
          exact hfin.symm
        · simp [finishResponse, hb, hparse] at hfin
      · simp [finishResponse, hb] at hfin
        exact hfin.symm

/-- C6 witness: a redirect result with no explicit status and one declared
header redirects with the default 307 and carries the header. -/
theorem c6_emission_defaults_and_overrides_witness :
    emitResult { redirect := some "/away", headers := some [("x-a", .str "1")] } =
      { headers := [("x-a", .str "1")], action := .redirectAction 307 "/away" } :=
  (c6_emission_defaults_and_overrides
      { redirect := some "/away", headers := some [("x-a", .str "1")] }).1
    "/away" rfl (by decide)

/-- C10: the status defaulting tests JS truthiness, not presence: an
explicit status 0 falls back to the defaults (200 on the body path, 307 on
the redirect path), and an empty-string redirect is treated as no redirect,
taking the body path. -/
theorem c10_falsy_status_and_redirect (r : HandlerResponse) :
    (r.status = some 0 → redirectTruthy r.redirect = false →
      emitResult r = { headers := setResponseHeaders r.headers,
                       action := .sendAction 200 r.body }) ∧
    (∀ loc, r.status = some 0 → r.redirect = some loc → loc ≠ "" →
      emitResult r = { headers := setResponseHeaders r.headers,
                       action := .redirectAction 307 loc }) ∧
    (r.redirect = some "" →
      emitResult r = { headers := setResponseHeaders r.headers,
                       action := .sendAction (statusOrDefault r.status 200) r.body }) := by
  refine ⟨?_, ?_, ?_⟩
  · intro hs hred
    simp [emitResult, hred, statusOrDefault, hs]
  · intro loc hs hloc hne
    simp [emitResult, redirectTruthy, hloc, hne, statusOrDefault, hs]
  · intro hred
    simp [emitResult, redirectTruthy, hred]

/-- C10 witness: a result with status 0 and no redirect is sent with the
default status 200. -/
theorem c10_falsy_status_and_redirect_witness :
    emitResult { status := some 0, body := some (.obj []) } =
      { headers := [], action := .sendAction 200 (some (.obj [])) } :=
  (c10_falsy_status_and_redirect { status := some 0, body := some (.obj []) }).1
    rfl rfl

/-- C7: decorators are reduced left to right, so a declared list
`[d1, d2, d3]` composes to `d3 (d2 (d1 H))` — the last-listed decorator is
the outermost wrapper — and an empty or absent decorator list returns the
inner dispatcher unchanged. -/
theorem c7_decorator_composition (handler : NextApiHandlerM)
    (d1 d2 d3 : Decorator) (endpoints : List EndpointDef) :
    decorateHandler handler [d1, d2, d3] = d3 (d2 (d1 handler)) ∧
    decorateHandler handler [] = handler ∧
    asHandler endpoints { decorators := none } =
      (buildMethodEndpoints endpoints).map (fun eps => outerHandler eps) := by
  refine ⟨rfl, rfl, ?_⟩
  cases h : buildMethodEndpoints endpoints <;>
    simp [asHandler, h, decorateHandler, Except.map]

/-- C1 (counterexample): with a context builder returning
`{ query: "clobber" }`, the dispatched handler observes the raw request
query `"rawQuery"`, not the builder's value — the ExtraContext value does
NOT win the `query` collision, refuting the claimed merge order. -/
theorem c1_extra_context_does_not_win :
    runEndpointPipeline [("get", clobberQueryEndpoint)] rawQueryRequest =
      .ok { headers := [],
            action := .sendAction 200 (some (.obj [("q", .str "rawQuery")])) } ∧
    ctxGet (buildMergedContext (createRouteContext rawQueryRequest)
        [("query", CtxVal.jval (.str "clobber"))] rawQueryRequest) "query" =
      some (CtxVal.jval (.str "rawQuery")) ∧
    JValue.str "rawQuery" ≠ JValue.str "clobber" :=
  ⟨rfl, rfl, by simp⟩

/-- C1 (amended): the context passed to the handler is built by merging the
base RouteContext, then the builder's ExtraContext, then the raw
`{ query, body }` request fields, in that spread order — so the `query` and
`body` keys always carry the request's values (beating any ExtraContext
binding), while for every other key an ExtraContext binding wins over the
RouteContext. -/
theorem c1_merge_order (routeContext : RouteContext) (extra : CtxObject)
    (req : NextApiRequest) :
    ctxGet (buildMergedContext routeContext extra req) "query" =
      some (.jval req.query) ∧
    ctxGet (buildMergedContext routeContext extra req) "body" =
      some (.jval req.body) ∧
    ∀ k, k ≠ "query" → k ≠ "body" →
      ctxGet (buildMergedContext routeContext extra req) k =
        ((ctxGet extra k).or (ctxGet routeContext k)) := by
  refine ⟨?_, ?_, fun k hq hb => ?_⟩
  · simp [buildMergedContext, ctxGet, List.reverse_append, List.find?_append]
  · simp [buildMergedContext, ctxGet, List.reverse_append, List.find?_append]
  · have hq' : ("query" == k) = false := by
      simp [Ne.symm hq]
    have hb' : ("body" == k) = false := by
      simp [Ne.symm hb]
    simp only [buildMergedContext, ctxGet, List.reverse_append, List.find?_append]
    simp only [List.reverse_cons, List.reverse_nil, List.nil_append,
      List.cons_append, List.find?_cons, hq', hb', List.find?_nil]
    cases h : (extra.reverse.find? fun p => p.1 == k) <;>
      simp [h, Option.or]

/-- C1 witness: for a key bound both by the route context and the extra
context, the extra context's binding is the one the handler sees. -/
theorem c1_merge_order_witness :
    ctxGet (buildMergedContext [("userId", CtxVal.jval (.str "base"))]
        [("userId", CtxVal.jval (.str "extra"))] getRequest) "userId" =
      some (CtxVal.jval (.str "extra")) :=
  (c1_merge_order [("userId", CtxVal.jval (.str "base"))]
      [("userId", CtxVal.jval (.str "extra"))] getRequest).2.2
    "userId" (by decide) (by decide)

/-- C8: the code passes the raw pre-validation request values to the
handler, not the schemas' parsed output.  At the failing input — a request
query `"raw"` against a query schema normalising `"raw"` to `"normalised"`
— the schema's safe parse succeeds with the transformed value, yet the
handler observes the untouched `"raw"`, contradicting the documented
contract that the handler receives the validated/normalised value. -/
theorem c8_handler_receives_raw_values :
    normalisingSchema.safeParse (JValue.str "raw") =
      .success (.str "normalised") ∧
    runEndpointPipeline [("get", normalisingEndpoint)] rawRequest =
      .ok { headers := [],
            action := .sendAction 200 (some (.obj [("q", .str "raw")])) } ∧
    JValue.str "raw" ≠ JValue.str "normalised" :=
  ⟨rfl, rfl, by simp⟩

/-- Behaviour of the method-index fold from an arbitrary accumulator with
duplicate-free keys: it succeeds exactly when the accumulated keys together
with the remaining lower-cased methods are duplicate-free, and otherwise
stops with the duplicate-method error naming a method that occurs at least
twice among them. -/
theorem buildMethodEndpointsAux_spec (l : List EndpointDef) :
    ∀ acc : List (String × EndpointDef), (acc.map Prod.fst).Nodup →
    (((acc.map Prod.fst) ++ l.map fun e => toLowerCase e.method).Nodup →
      ∃ r, buildMethodEndpointsAux acc l = .ok r) ∧
    (¬ ((acc.map Prod.fst) ++ l.map fun e => toLowerCase e.method).Nodup →
      ∃ m, 2 ≤ ((acc.map Prod.fst) ++ l.map fun e => toLowerCase e.method).count m ∧
        buildMethodEndpointsAux acc l =
          .error ("Duplicate endpoint definition for " ++ m)) := by
  induction l with
  | nil =>
    intro acc hacc
    refine ⟨fun _ => ⟨acc, rfl⟩, fun hdup => ?_⟩
    rw [List.map_nil, List.append_nil] at hdup
    exact absurd hacc hdup
  | cons e rest ih =>
    intro acc hacc
    by_cases hmem : toLowerCase e.method ∈ acc.map Prod.fst
    · have hany : (acc.any fun p => p.1 == toLowerCase e.method) = true := by
        rw [List.any_eq_true]
        obtain ⟨p, hp, hpk⟩ := List.mem_map.mp hmem
        exact ⟨p, hp, by simp [hpk]⟩
      have heq : buildMethodEndpointsAux acc (e :: rest) =
          .error ("Duplicate endpoint definition for " ++ toLowerCase e.method) := by
        simp [buildMethodEndpointsAux, hany]
      constructor
      · intro hnodup
        exfalso
        exact (List.disjoint_of_nodup_append hnodup) hmem
          (by simp [List.map_cons])
      · intro _
        refine ⟨toLowerCase e.method, ?_, heq⟩
        have h1 : 0 < (acc.map Prod.fst).count (toLowerCase e.method) :=
          List.count_pos_iff.mpr hmem
        rw [List.map_cons, List.count_append, List.count_cons_self]
        omega
    · have hany : (acc.any fun p => p.1 == toLowerCase e.method) = false := by
        rw [List.any_eq_false]
        intro p hp
        simp only [beq_iff_eq]
        intro hcontra
        exact hmem (List.mem_map.mpr ⟨p, hp, hcontra⟩)
      have heq : buildMethodEndpointsAux acc (e :: rest) =
          buildMethodEndpointsAux (acc ++ [(toLowerCase e.method, e)]) rest := by
        simp [buildMethodEndpointsAux, hany]
      have hkeys : (acc ++ [(toLowerCase e.method, e)]).map Prod.fst =
          acc.map Prod.fst ++ [toLowerCase e.method] := by
        simp
      have hacc' : ((acc ++ [(toLowerCase e.method, e)]).map Prod.fst).Nodup := by
        rw [hkeys]
        exact List.Nodup.append hacc (List.nodup_singleton _)
          (by intro a ha hb; simp at hb; exact hmem (hb ▸ ha))
      have hassoc : (acc.map Prod.fst ++ [toLowerCase e.method]) ++
            rest.map (fun e => toLowerCase e.method) =
          acc.map Prod.fst ++ (e :: rest).map (fun e => toLowerCase e.method) := by
        simp
      have := ih (acc ++ [(toLowerCase e.method, e)]) hacc'
      rw [hkeys, hassoc, heq.symm] at this
      exact this

/-- C3: for every endpoint list whose lower-cased methods are pairwise
distinct, `asHandler` succeeds and returns a request handler; for every
list in which two endpoints share a method (compared case-insensitively),
`asHandler` raises the synchronous `Duplicate endpoint definition` error
naming a method declared at least twice, before any request handler is
returned. -/
theorem c3_duplicate_method_rejection (endpoints : List EndpointDef)
    (options : AsHandlerOptions) :
    ((endpoints.map fun e => toLowerCase e.method).Nodup →
      ∃ h, asHandler endpoints options = .ok h) ∧
    (¬ (endpoints.map fun e => toLowerCase e.method).Nodup →
      ∃ m, 2 ≤ (endpoints.map fun e => toLowerCase e.method).count m ∧
        asHandler endpoints options =
          .error ("Duplicate endpoint definition for " ++ m)) := by
  have hspec := buildMethodEndpointsAux_spec endpoints [] (by simp)
  simp only [List.map_nil, List.nil_append] at hspec
  constructor
  · intro hnodup
    obtain ⟨r, hr⟩ := hspec.1 hnodup
    refine ⟨decorateHandler (outerHandler r) (options.decorators.getD []), ?_⟩
    simp [asHandler, buildMethodEndpoints, hr]
  · intro hdup
    obtain ⟨m, hm, herr⟩ := hspec.2 hdup
    exact ⟨m, hm, by simp [asHandler, buildMethodEndpoints, herr]⟩

/-- C3 witness: two GET endpoints (one written `"GET"`) collide
case-insensitively and construction fails naming `get`. -/
theorem c3_duplicate_method_rejection_witness :
    ∃ m, 2 ≤ ([simpleGetEndpoint,
        { simpleGetEndpoint with method := "GET" }].map
          fun e => toLowerCase e.method).count m ∧
      asHandler [simpleGetEndpoint, { simpleGetEndpoint with method := "GET" }]
          { decorators := none } =
        .error ("Duplicate endpoint definition for " ++ m) :=
  (c3_duplicate_method_rejection
      [simpleGetEndpoint, { simpleGetEndpoint with method := "GET" }]
      { decorators := none }).2 (by decide)

end NextBetterApi
